import Mathlib

/-!
Verification of the video-gif-converter pipeline (vgif).

This file gives a shallow embedding of the parts of the converter that the
specification talks about, and settles the specification claims against it.
Sources embedded here:
  - src/unnamed/part_001 (the v1.1.0 CLI: cache, retry, segment download,
    crossfade synthesis, size estimator, run pipeline), and
  - src/video-gif-converter.js (the v1.0.0 CLI) where a claim cites it.

Durations and rates are modelled with exact rational arithmetic (the spec
declares exact arithmetic to be the test oracle for the numeric components);
the square root taken by the size estimator is modelled over the reals.
Filesystem state is modelled explicitly: a list of cache entries, a list of
tracked temporary paths, a list of existing output paths.
-/

namespace VGif

/- ===================================================================
   Loop Synthesizer: the crossfade filter graph built by processCrossfade
   in src/unnamed/part_001, lines 935-953.  The graph splits the input and
   declares, for total duration T and crossfade length X:
     [middle] trim=start=X:end=T-X            -> [main]
     [begin]  trim=start=0:end=X, fade in     -> [fadein]
     [end]    trim=start=T-X:end=T, fade out  -> [fadeout]
     [fadeout][fadein] overlay                -> [transition]
     [main][transition] concat
   A trim with start=a:end=b keeps the window [a, b], so it lasts b - a
   seconds; setpts=PTS-STARTPTS resets timestamps and keeps the length;
   fade keeps the length; overlay runs for the length of its first input
   ([fadeout]); concat adds the lengths.
   =================================================================== -/

structure TrimSpec where
  tstart : ℚ
  tstop : ℚ
deriving DecidableEq

def segLen (t : TrimSpec) : ℚ := t.tstop - t.tstart

/-- The [main] leg: trim=start=crossfadeDuration:end=totalDuration-crossfadeDuration. -/
def mainSeg (T X : ℚ) : TrimSpec := ⟨X, T - X⟩

/-- The [fadein] leg: trim=start=0:end=crossfadeDuration. -/
def fadeinSeg (X : ℚ) : TrimSpec := ⟨0, X⟩

/-- The [fadeout] leg: trim=start=totalDuration-crossfadeDuration:end=totalDuration. -/
def fadeoutSeg (T X : ℚ) : TrimSpec := ⟨T - X, T⟩

/-- Length of the [transition] leg: overlay of [fadein] over [fadeout] lasts as
long as its first input, the [fadeout] leg. -/
def transitionLen (T X : ℚ) : ℚ := segLen (fadeoutSeg T X)

/-- Total length of the concat output: [main] followed by [transition]. -/
def crossfadeOutputLen (T X : ℚ) : ℚ := segLen (mainSeg T X) + transitionLen T X

/- ===================================================================
   Size Estimator: src/unnamed/part_001 lines 1543-1570 (identical in
   src/video-gif-converter.js lines 757-784).
     estimatedFrames  = fps * duration
     estimatedPixels  = width * width * 0.56
     estimatedSizeMB  = estimatedFrames * estimatedPixels * 3 / (8*1024*1024)
   If the estimate exceeds maxSizeMB:
     reductionFactor = sqrt(estimate / maxSizeMB)
     newWidth = floor(width / reductionFactor)
     newFps   = max(10, floor(fps / (reductionFactor * 0.7)))
   and width and fps are replaced; otherwise they are left unchanged.
   =================================================================== -/

def estimatedFrames (fps duration : ℕ) : ℕ := fps * duration

def estimatedPixels (width : ℕ) : ℚ := (width : ℚ) * (width : ℚ) * (56 / 100)

def estimatedSizeMB (width fps duration : ℕ) : ℚ :=
  ((estimatedFrames fps duration : ℚ) * estimatedPixels width * 3) / (8 * 1024 * 1024)

noncomputable def reductionFactor (width fps duration maxSizeMB : ℕ) : ℝ :=
  Real.sqrt ((estimatedSizeMB width fps duration : ℝ) / (maxSizeMB : ℝ))

noncomputable def adjustedWidth (width fps duration maxSizeMB : ℕ) : ℤ :=
  if estimatedSizeMB width fps duration > (maxSizeMB : ℚ) then
    ⌊(width : ℝ) / reductionFactor width fps duration maxSizeMB⌋
  else
    (width : ℤ)

noncomputable def adjustedFps (width fps duration maxSizeMB : ℕ) : ℤ :=
  if estimatedSizeMB width fps duration > (maxSizeMB : ℚ) then
    max 10 ⌊(fps : ℝ) / (reductionFactor width fps duration maxSizeMB * (7 / 10))⌋
  else
    (fps : ℤ)

/- ===================================================================
   Retry Executor: withRetry, src/unnamed/part_001 lines 474-500.
   The loop runs attempt = 1 .. maxRetries+1.  Each attempt calls fn; on
   failure with attempt <= maxRetries the observer (onRetry) is invoked
   once and the loop sleeps and continues; a failure of the final attempt
   re-raises the last error.  The attempt-indexed function models one call
   of fn per attempt; the returned number counts observer invocations.
   retryGo is indexed by the number of retries still allowed after the
   current attempt, so withRetry runs at most maxRetries+1 attempts.
   =================================================================== -/

def retryGo {E A : Type} (fn : ℕ → Except E A) (attempt obsCalls : ℕ) :
    ℕ → Except E A × ℕ
  | 0 => (fn attempt, obsCalls)
  | retriesLeft + 1 =>
    match fn attempt with
    | .ok v => (.ok v, obsCalls)
    | .error _ => retryGo fn (attempt + 1) (obsCalls + 1) retriesLeft

def withRetry {E A : Type} (fn : ℕ → Except E A) (maxRetries : ℕ) : Except E A × ℕ :=
  retryGo fn 1 0 maxRetries

/- ===================================================================
   Segment Cache, file-stat level: cleanupCache, src/unnamed/part_001
   lines 377-464.  cleanupCache collects the cache files with their stat
   size and mtime, first unlinks every file older than the max age, then
   sorts the remainder by mtime ascending and unlinks from the front while
   the total size exceeds the configured cap.  The JS Array.prototype.sort
   is stable; it is modelled by a stable insertion sort.
   =================================================================== -/

structure CacheFile where
  path : String
  size : ℕ
  mtime : ℤ
deriving DecidableEq

def totalSize (files : List CacheFile) : ℕ := (files.map (fun f => f.size)).sum

/-- A file is expired when now - mtime exceeds the max age (both in ms). -/
def isExpired (now maxAgeMs : ℤ) (f : CacheFile) : Bool := maxAgeMs < now - f.mtime

def insertByMtime (f : CacheFile) : List CacheFile → List CacheFile
  | [] => [f]
  | g :: gs => if f.mtime ≤ g.mtime then f :: g :: gs else g :: insertByMtime f gs

def sortByMtime : List CacheFile → List CacheFile
  | [] => []
  | f :: fs => insertByMtime f (sortByMtime fs)

/-- The while loop of cleanupCache: while total size exceeds the cap and files
remain, unlink the oldest (front of the mtime-ascending list). -/
def evictOldest (cap : ℕ) : List CacheFile → List CacheFile
  | [] => []
  | f :: rest =>
    if cap < totalSize (f :: rest) then evictOldest cap rest else f :: rest

def cleanupCache (now maxAgeMs : ℤ) (cap : ℕ) (files : List CacheFile) : List CacheFile :=
  evictOldest cap (sortByMtime (files.filter (fun f => !isExpired now maxAgeMs f)))

/- ===================================================================
   Segment Cache, content level: getCachedSegment (lines 257-284) and
   saveCachedSegment (lines 294-313) of src/unnamed/part_001.  The store
   maps the cache key to the bytes of the stored segment file and its
   mtime.  saveCachedSegment copies the segment into the cache (an
   existing file under the same key is overwritten, and the copy receives
   the current time as mtime).  getCachedSegment returns the cached bytes
   when the entry is within the max age and nonempty; otherwise it unlinks
   the stale entry and reports a miss.  Neither function invokes
   cleanupCache: that runs only from initializeCache (line 229).
   =================================================================== -/

structure SegEntry where
  key : String
  content : List ℕ
  mtime : ℤ
deriving DecidableEq

def lookupSeg : List SegEntry → String → Option SegEntry
  | [], _ => none
  | e :: es, k => if e.key = k then some e else lookupSeg es k

def storeReplace : List SegEntry → SegEntry → List SegEntry
  | [], e => [e]
  | f :: fs, e => if f.key = e.key then e :: fs else f :: storeReplace fs e

def eraseSeg : List SegEntry → String → List SegEntry
  | [], _ => []
  | f :: fs, k => if f.key = k then fs else f :: eraseSeg fs k

def segTotalSize (store : List SegEntry) : ℕ :=
  (store.map (fun e => e.content.length)).sum

def saveCachedSegment (store : List SegEntry) (k : String) (content : List ℕ)
    (now : ℤ) : List SegEntry :=
  storeReplace store ⟨k, content, now⟩

def getCachedSegment (store : List SegEntry) (k : String) (now maxAgeMs : ℤ) :
    Option (List ℕ) × List SegEntry :=
  match lookupSeg store k with
  | none => (none, store)
  | some e =>
    if now - e.mtime ≤ maxAgeMs ∧ 0 < e.content.length then (some e.content, store)
    else (none, eraseSeg store k)

/- ===================================================================
   Format Selector.
   Legacy selector: src/video-gif-converter.js run(), lines 661-676:
     formats = info.formats.filter(f => f.hasVideo && !f.hasAudio)
     format  = formats.length > 0
       ? formats.sort((a,b) => b.width - a.width)[0]
       : info.formats.filter(f => f.hasVideo).sort((a,b) => b.width - a.width)[0]
   Segment selector: src/unnamed/part_001 downloadVideoSegment, lines
   636-700: formats = info.formats.filter(f => f.hasVideo) (renditions
   with audio are NOT filtered out); prefer mp4-container formats when any
   exist; sort ascending by width; then pick by the quality option
   (auto: first format at least 1.5x the requested width capped at 1920,
   else the widest; lowest/low/medium/high/highest: the tier index
   floor(count * fraction) with the fallbacks written in the source).
   JS sorts are modelled by stable insertion sorts.
   =================================================================== -/

structure Rendition where
  width : ℕ
  hasVideo : Bool
  hasAudio : Bool
  isMp4 : Bool
deriving DecidableEq

def insertByWidthDesc (r : Rendition) : List Rendition → List Rendition
  | [] => [r]
  | s :: ss => if s.width ≤ r.width then r :: s :: ss else s :: insertByWidthDesc r ss

def sortByWidthDesc : List Rendition → List Rendition
  | [] => []
  | r :: rs => insertByWidthDesc r (sortByWidthDesc rs)

def insertByWidthAsc (r : Rendition) : List Rendition → List Rendition
  | [] => [r]
  | s :: ss => if r.width ≤ s.width then r :: s :: ss else s :: insertByWidthAsc r ss

def sortByWidthAsc : List Rendition → List Rendition
  | [] => []
  | r :: rs => insertByWidthAsc r (sortByWidthAsc rs)

def selectFormatLegacy (renditions : List Rendition) : Option Rendition :=
  let videoOnly := renditions.filter (fun f => f.hasVideo && !f.hasAudio)
  if videoOnly.isEmpty then
    (sortByWidthDesc (renditions.filter (fun f => f.hasVideo))).head?
  else
    (sortByWidthDesc videoOnly).head?

inductive Quality
  | auto
  | lowest
  | low
  | medium
  | high
  | highest
deriving DecidableEq

def compatibleFormats (renditions : List Rendition) : List Rendition :=
  let formats := renditions.filter (fun f => f.hasVideo)
  let mp4Formats := formats.filter (fun f => f.isMp4)
  if mp4Formats.isEmpty then formats else mp4Formats

def selectFormatSegment (renditions : List Rendition) (q : Quality)
    (reqWidth : ℕ) : Option Rendition :=
  let sorted := sortByWidthAsc (compatibleFormats renditions)
  let n := sorted.length
  match q with
  | .auto =>
    let target : ℚ := min 1920 ((reqWidth : ℚ) * 3 / 2)
    match sorted.find? (fun f => target ≤ (f.width : ℚ)) with
    | some f => some f
    | none => sorted.getLast?
  | .lowest => sorted[0]?
  | .low =>
    match sorted[(n * 25) / 100]? with
    | some f => some f
    | none => sorted[0]?
  | .medium =>
    match sorted[(n * 50) / 100]? with
    | some f => some f
    | none => sorted[0]?
  | .high =>
    match sorted[(n * 75) / 100]? with
    | some f => some f
    | none => sorted.getLast?
  | .highest => sorted[n - 1]?

/- ===================================================================
   Run pipeline control flow: run(), src/unnamed/part_001 lines 1289-1927.
   The model records, per run configuration, the ordered pipeline events,
   the exit kind, and the resource state at process end (the temp paths
   still registered in the tracked list, and whether the temp directory
   was removed).
   Faithful points from the source:
     - the tracked list receives the downloaded video temp path (line
       1395); preprocessVideoSpeed and processCrossfade are top-level
       functions where the typeof trackTempFile guard finds no binding,
       so their temp files are never tracked; the downloaded temp is
       released right after speed preprocessing replaces it (line 1537);
     - validation failures, download failures and the crossfade-versus-
       duration check all call process.exit(1) inside the try block, and
       the catch handler for a conversion failure also calls
       process.exit(1); in Node, process.exit terminates the process at
       once, so the finally block (the final sweep, lines 1885-1926) runs
       only when the try body completes normally;
     - the crossfade check (lines 1578-1584) sits after segment download
       (line 1459), speed preprocessing (line 1534) and the size estimate
       (lines 1543-1570), and before processCrossfade (line 1587).
   =================================================================== -/

inductive Ev
  | fetchInfo
  | download
  | speedPre
  | sizeEstimate
  | loopCheck
  | synthesize
  | encode
  | sweep
deriving DecidableEq

inductive Src
  | url
  | localFile
deriving DecidableEq

inductive BodyRes
  | ok
  | exit1
  | thrown
deriving DecidableEq

inductive RunOutcome
  | ok
  | exited (code : ℕ)
deriving DecidableEq

structure RunCfg where
  src : Src
  validUrl : Bool
  infoOk : Bool
  downloadOk : Bool
  downloadNonEmpty : Bool
  inputExists : Bool
  writeOk : Bool
  speedIsOne : Bool
  crossfade : ℚ
  duration : ℚ
  convertOk : Bool
deriving DecidableEq

/-- The pipeline stages after the source video is local: write-permission
check, speed preprocessing, size estimate, then the crossfade branch with its
precondition check, or the plain encode branch. -/
def afterAcquire (c : RunCfg) (evs : List Ev) (temps : List String)
    (usingTempVideo : Bool) : List Ev × BodyRes × List String :=
  if !c.writeOk then (evs, .exit1, temps)
  else
    let evs1 := if c.speedIsOne then evs ++ [.sizeEstimate]
                else evs ++ [.speedPre, .sizeEstimate]
    let temps1 := if c.speedIsOne || !usingTempVideo then temps
                  else temps.filter (fun p => p ≠ "video.mp4")
    if 0 < c.crossfade then
      if c.duration ≤ c.crossfade then (evs1 ++ [.loopCheck], .exit1, temps1)
      else if c.convertOk then (evs1 ++ [.loopCheck, .synthesize], .ok, temps1)
      else (evs1 ++ [.loopCheck, .synthesize], .thrown, temps1)
    else
      if c.convertOk then (evs1 ++ [.encode], .ok, temps1)
      else (evs1 ++ [.encode], .thrown, temps1)

/-- The body of the try block of run(). -/
def runBody (c : RunCfg) : List Ev × BodyRes × List String :=
  match c.src with
  | .url =>
    if !c.validUrl then ([], .exit1, ["video.mp4"])
    else if !c.infoOk then ([.fetchInfo], .exit1, ["video.mp4"])
    else if !c.downloadOk then ([.fetchInfo, .download], .exit1, ["video.mp4"])
    else if !c.downloadNonEmpty then ([.fetchInfo, .download], .exit1, ["video.mp4"])
    else afterAcquire c [.fetchInfo, .download] ["video.mp4"] true
  | .localFile =>
    if !c.inputExists then ([], .exit1, [])
    else afterAcquire c [] [] false

structure RunResult where
  trace : List Ev
  outcome : RunOutcome
  leftoverTemps : List String
  tempDirRemoved : Bool
deriving DecidableEq

/-- try/catch/finally semantics of run() under process.exit: the finally
sweep (which unlinks every still-tracked path, empties the temp directory
and removes it) runs only when the try body completes normally; an exit1
path dies inside the try block, and a thrown conversion error reaches the
catch handler which itself calls process.exit(1) before the finally block
can run. -/
def runModel (c : RunCfg) : RunResult :=
  match runBody c with
  | (evs, .ok, _) => ⟨evs ++ [.sweep], .ok, [], true⟩
  | (evs, .exit1, temps) => ⟨evs, .exited 1, temps, false⟩
  | (evs, .thrown, temps) => ⟨evs, .exited 1, temps, false⟩

/- ===================================================================
   Unique output path: getUniqueFilePath, src/unnamed/part_001 lines
   1336-1354 (identical in src/video-gif-converter.js lines 578-595).
   path.extname and the slice split the base path into a stem and its
   extension (basePath = stem ++ ext); the do/while loop appends -1, -2,
   ... to the stem until the candidate does not exist.  The filesystem is
   modelled as the list of existing paths; the loop is modelled with a
   fuel bound of length + 1 (the JS loop has no bound; it terminates on a
   finite filesystem because distinct counters give distinct names).
   =================================================================== -/

def candidatePath (stem ext : String) (counter : ℕ) : String :=
  stem ++ "-" ++ toString counter ++ ext

def findFreeSuffix (fsx : List String) (stem ext : String) :
    ℕ → ℕ → Option String
  | _, 0 => none
  | counter, fuel + 1 =>
    if candidatePath stem ext counter ∈ fsx then
      findFreeSuffix fsx stem ext (counter + 1) fuel
    else
      some (candidatePath stem ext counter)

def getUniqueFilePath (fsx : List String) (stem ext : String) : Option String :=
  if (stem ++ ext) ∈ fsx then findFreeSuffix fsx stem ext 1 (fsx.length + 1)
  else some (stem ++ ext)

/- ===================================================================
   Concrete instances used by witnesses and counterexamples.
   =================================================================== -/

/-- An attempt-indexed function that fails on attempts 1 and 2 and succeeds
from attempt 3 on. -/
def fnW : ℕ → Except ℕ ℕ := fun i => if i ≤ 2 then .error 7 else .ok 42

/-- A remote-source run at normal speed whose crossfade (2s) is not shorter
than its duration (1s). -/
def c3Cfg : RunCfg := ⟨.url, true, true, true, true, true, true, true, 2, 1, true⟩

/-- A remote-source run without crossfade that completes normally. -/
def c3OkCfg : RunCfg := ⟨.url, true, true, true, true, true, true, true, 0, 5, true⟩

/-- A remote-source run at altered speed whose crossfade (2s) is not shorter
than its duration (1s). -/
def c7Cfg : RunCfg := ⟨.url, true, true, true, true, true, true, false, 2, 1, true⟩

/-- A segment store holding one single-byte entry. -/
def st5 : List SegEntry := [⟨"a", [0], 0⟩]

/-- Two renditions: a 100px one carrying audio and a 200px video-only one,
both with video and both mp4. -/
def c6List : List Rendition := [⟨100, true, true, true⟩, ⟨200, true, false, true⟩]

/-- An existing-path list in which the base output name and its first
suffixed variant are already taken. -/
def fs9 : List String := ["out.gif", "out-1.gif"]

/- ===================================================================
   Theorems.
   =================================================================== -/

/-- C1 (counterexample): at T = 5 and X = 1 (so 0 < X < T) the crossfade
graph yields a clip of length 4, not the total duration T = 5, refuting the
claim that the output built from main = [X, T-X] plus the transition has
total length T. -/
theorem crossfade_output_len_ne_total :
    (0 : ℚ) < 1 ∧ (1 : ℚ) < 5 ∧ crossfadeOutputLen 5 1 ≠ 5 := by
  refine ⟨by norm_num, by norm_num, ?_⟩
  norm_num [crossfadeOutputLen, segLen, mainSeg, transitionLen, fadeoutSeg]

/-- C1 (amended): for every total duration T and crossfade length X with
0 < X < T, the output of the crossfade filter graph — main trimmed to
[X, T-X] concatenated with the X-second transition — has total length
T - X (not T). -/
theorem crossfade_output_len_eq (T X : ℚ) (_hX : 0 < X) (_hXT : X < T) :
    crossfadeOutputLen T X = T - X := by
  unfold crossfadeOutputLen transitionLen segLen mainSeg fadeoutSeg
  ring

/-- C1 witness: the amended length statement evaluated at T = 5, X = 1. -/
theorem crossfade_output_len_eq_witness : crossfadeOutputLen 5 1 = 5 - 1 :=
  crossfade_output_len_eq 5 1 (by norm_num) (by norm_num)

/-- C2 (counterexample): with width 480, fps 30, duration 5 and max size 50,
the estimator evaluates to 14175/2048 MB (about 6.92 MB), which does not
exceed 50, so the reduction branch is not taken and the parameters are not
replaced by 363 and 32 — the claimed estimate of about 87.6 MB and the
claimed replacements are false for these inputs. -/
theorem size_estimator_example_false :
    estimatedSizeMB 480 30 5 = 14175 / 2048 ∧
    ¬ ((50 : ℚ) < estimatedSizeMB 480 30 5) ∧
    adjustedWidth 480 30 5 50 ≠ 363 ∧
    adjustedFps 480 30 5 50 ≠ 32 := by
  have h : estimatedSizeMB 480 30 5 = 14175 / 2048 := by
    norm_num [estimatedSizeMB, estimatedFrames, estimatedPixels]
  have hn : ¬ (estimatedSizeMB 480 30 5 > ((50 : ℕ) : ℚ)) := by
    rw [h]; norm_num
  refine ⟨h, by rw [h]; norm_num, ?_, ?_⟩
  · unfold adjustedWidth
    rw [if_neg hn]
    norm_num
  · unfold adjustedFps
    rw [if_neg hn]
    norm_num

/-- C2 (amended): with width 480, fps 30, duration 5 and max size 50, the
size-estimator heuristic yields exactly 14175/2048 MB (about 6.92 MB), which
is below the 50 MB budget, so the active parameters are left unchanged at
width 480 and fps 30. -/
theorem size_estimator_example_no_adjustment :
    estimatedSizeMB 480 30 5 = 14175 / 2048 ∧
    adjustedWidth 480 30 5 50 = 480 ∧
    adjustedFps 480 30 5 50 = 30 := by
  have h : estimatedSizeMB 480 30 5 = 14175 / 2048 := by
    norm_num [estimatedSizeMB, estimatedFrames, estimatedPixels]
  have hn : ¬ (estimatedSizeMB 480 30 5 > ((50 : ℕ) : ℚ)) := by
    rw [h]; norm_num
  refine ⟨h, ?_, ?_⟩
  · unfold adjustedWidth
    rw [if_neg hn]
    norm_num
  · unfold adjustedFps
    rw [if_neg hn]
    norm_num

/-- C10: the size-budget adjustment does not always reduce both parameters:
at width 480, fps 30, duration 5 and max size 5 the estimate (about 6.92 MB)
exceeds the budget, the reduction factor lies strictly between 1 and 1/0.7,
and the adjusted fps, max(10, floor(30 / (factor * 0.7))) = 36, is strictly
greater than the requested 30. -/
theorem size_budget_raises_fps :
    (5 : ℚ) < estimatedSizeMB 480 30 5 ∧
    1 < reductionFactor 480 30 5 5 ∧
    reductionFactor 480 30 5 5 < 1 / (7 / 10) ∧
    (30 : ℤ) < adjustedFps 480 30 5 5 := by
  have h : estimatedSizeMB 480 30 5 = 14175 / 2048 := by
    norm_num [estimatedSizeMB, estimatedFrames, estimatedPixels]
  have hq : (5 : ℚ) < estimatedSizeMB 480 30 5 := by rw [h]; norm_num
  have hrf : reductionFactor 480 30 5 5 = Real.sqrt (2835 / 2048) := by
    unfold reductionFactor
    rw [h]
    norm_num
  have h1 : (1 : ℝ) < Real.sqrt (2835 / 2048) := by
    rw [Real.lt_sqrt (by norm_num)]
    norm_num
  have h2 : Real.sqrt (2835 / 2048) < 10 / 7 := by
    rw [Real.sqrt_lt' (by norm_num)]
    norm_num
  have h3 : Real.sqrt (2835 / 2048) ≤ 25 / 21 := by
    rw [Real.sqrt_le_left (by norm_num)]
    norm_num
  have hfloor : (36 : ℤ) ≤ ⌊(30 : ℝ) / (Real.sqrt (2835 / 2048) * (7 / 10))⌋ := by
    rw [Int.le_floor]
    push_cast
    rw [le_div_iff₀ (by positivity)]
    nlinarith [h1, h3]
  have hfps : adjustedFps 480 30 5 5 =
      max 10 ⌊(30 : ℝ) / (reductionFactor 480 30 5 5 * (7 / 10))⌋ := by
    unfold adjustedFps
    rw [if_pos (by rw [h]; norm_num)]
    norm_num
  refine ⟨hq, by rw [hrf]; exact h1, ?_, ?_⟩
  · rw [hrf, show (1 : ℝ) / (7 / 10) = 10 / 7 by norm_num]
    exact h2
  rw [hfps, hrf]
  exact lt_of_lt_of_le (by norm_num)
    (le_trans hfloor (le_max_right 10 _))

theorem retryGo_ok_after {E A : Type} (fn : ℕ → Except E A) (v : A) :
    ∀ K attempt obsCalls retriesLeft : ℕ,
      K ≤ retriesLeft →
      (∀ i, attempt ≤ i → i < attempt + K → ∃ e, fn i = Except.error e) →
      fn (attempt + K) = Except.ok v →
      retryGo fn attempt obsCalls retriesLeft = (Except.ok v, obsCalls + K) := by
  intro K
  induction K with
  | zero =>
    intro attempt obsCalls retriesLeft _hle _hfail hsucc
    rw [Nat.add_zero] at hsucc
    cases retriesLeft with
    | zero => simp [retryGo, hsucc]
    | succ m => simp [retryGo, hsucc]
  | succ k ih =>
    intro attempt obsCalls retriesLeft hle hfail hsucc
    cases retriesLeft with
    | zero => omega
    | succ m =>
      obtain ⟨e, he⟩ := hfail attempt (le_refl _) (by omega)
      have hrec := ih (attempt + 1) (obsCalls + 1) m (by omega)
        (fun i h1 h2 => hfail i (by omega) (by omega))
        (by rw [show attempt + 1 + k = attempt + (k + 1) by omega]; exact hsucc)
      simp only [retryGo, he]
      rw [hrec]
      congr 1
      omega

/-- C4: a function that fails on attempts 1 through K and succeeds on
attempt K+1, run under withRetry with maxRetries at least K, returns the
success value, and the retry observer is invoked exactly K times (once per
failed non-final attempt). -/
theorem withRetry_k_failures {E A : Type} (fn : ℕ → Except E A) (v : A)
    (K maxRetries : ℕ)
    (hfail : ∀ i, 1 ≤ i → i ≤ K → ∃ e, fn i = Except.error e)
    (hsucc : fn (K + 1) = Except.ok v)
    (hK : K ≤ maxRetries) :
    withRetry fn maxRetries = (Except.ok v, K) := by
  unfold withRetry
  have h := retryGo_ok_after fn v K 1 0 maxRetries hK
    (fun i h1 h2 => hfail i h1 (by omega))
    (by rw [show 1 + K = K + 1 by omega]; exact hsucc)
  rw [h, Nat.zero_add]

/-- C4 witness: the function failing on attempts 1 and 2 and succeeding on
attempt 3, run with maxRetries = 3, returns the success value 42 with the
observer invoked exactly twice. -/
theorem withRetry_k_failures_witness : withRetry fnW 3 = (Except.ok 42, 2) :=
  withRetry_k_failures fnW 42 2 3
    (fun i h1 h2 => ⟨7, by interval_cases i <;> rfl⟩)
    (by rfl)
    (by omega)

/-- C3 (counterexample): the run of c3Cfg aborts on the crossfade
precondition through process.exit(1); the final sweep never runs, the
tracked downloaded temp file survives, and the temp directory is not
removed — so not every exit path runs the final sweep. -/
theorem final_sweep_skipped_on_abort :
    (runModel c3Cfg).outcome = RunOutcome.exited 1 ∧
    Ev.sweep ∉ (runModel c3Cfg).trace ∧
    (runModel c3Cfg).leftoverTemps = ["video.mp4"] ∧
    (runModel c3Cfg).tempDirRemoved = false := by decide

/-- C3 (amended): the final sweep runs exactly on normal completion: when
the try body of run() finishes without process.exit and without a thrown
conversion error, the sweep event fires, every tracked temp path is removed
and the temp directory is deleted.  Abort paths (handled failures and early
aborts) terminate through process.exit(1) before the finally block, so the
sweep is skipped there. -/
theorem final_sweep_on_success (c : RunCfg)
    (h : (runModel c).outcome = RunOutcome.ok) :
    Ev.sweep ∈ (runModel c).trace ∧
    (runModel c).leftoverTemps = [] ∧
    (runModel c).tempDirRemoved = true := by
  rcases hb : runBody c with ⟨evs, res, temps⟩
  cases res <;> simp [runModel, hb, List.mem_append] at h ⊢

/-- C3 witness: the amended statement at a normally completing run. -/
theorem final_sweep_on_success_witness :
    Ev.sweep ∈ (runModel c3OkCfg).trace ∧
    (runModel c3OkCfg).leftoverTemps = [] ∧
    (runModel c3OkCfg).tempDirRemoved = true :=
  final_sweep_on_success c3OkCfg (by decide)

theorem runBody_loop_violation (c : RunCfg)
    (hpos : 0 < c.crossfade) (hviol : c.duration ≤ c.crossfade) :
    ∃ evs temps, runBody c = (evs, BodyRes.exit1, temps) ∧
      Ev.synthesize ∉ evs ∧ Ev.encode ∉ evs := by
  obtain ⟨src, vU, iO, dO, dN, iE, wO, sp, cf, du, cv⟩ := c
  dsimp at hpos hviol
  cases src <;>
    simp only [runBody, afterAcquire] <;>
    split_ifs <;>
    exact ⟨_, _, rfl, by decide, by decide⟩

/-- C7 (counterexample): with a remote source and crossfade 2s against
duration 1s, the run performs the metadata fetch, the segment download and
the speed preprocessing before the crossfade precondition check fires — the
LoopPrecondition is not validated pre-I/O. -/
theorem loop_check_after_transfer :
    (runModel c7Cfg).trace =
      [Ev.fetchInfo, Ev.download, Ev.speedPre, Ev.sizeEstimate, Ev.loopCheck] ∧
    0 < c7Cfg.crossfade ∧ c7Cfg.duration ≤ c7Cfg.crossfade ∧
    Ev.download ∈ (runModel c7Cfg).trace := by decide

/-- C7 (amended): the crossfade precondition (X < T) is validated after
source transfer and speed preprocessing but before the synthesis engine is
invoked: every violating run exits with status 1, and neither the
synthesize stage nor the encode stage is ever reached. -/
theorem loop_violation_aborts (c : RunCfg)
    (hpos : 0 < c.crossfade) (hviol : c.duration ≤ c.crossfade) :
    (runModel c).outcome = RunOutcome.exited 1 ∧
    Ev.synthesize ∉ (runModel c).trace ∧
    Ev.encode ∉ (runModel c).trace := by
  obtain ⟨evs, temps, hb, hs, he⟩ := runBody_loop_violation c hpos hviol
  simp [runModel, hb, hs, he]

/-- C7 witness: the amended statement at the violating run c7Cfg. -/
theorem loop_violation_aborts_witness :
    (runModel c7Cfg).outcome = RunOutcome.exited 1 ∧
    Ev.synthesize ∉ (runModel c7Cfg).trace ∧
    Ev.encode ∉ (runModel c7Cfg).trace :=
  loop_violation_aborts c7Cfg (by decide) (by decide)

theorem mem_insertByMtime (f a : CacheFile) (l : List CacheFile) :
    a ∈ insertByMtime f l ↔ a = f ∨ a ∈ l := by
  induction l with
  | nil => simp [insertByMtime]
  | cons g gs ih =>
    rw [insertByMtime]
    by_cases h : f.mtime ≤ g.mtime
    · rw [if_pos h]
      simp [List.mem_cons]
    · rw [if_neg h]
      simp only [List.mem_cons, ih]
      tauto

theorem mem_sortByMtime (a : CacheFile) (l : List CacheFile) :
    a ∈ sortByMtime l ↔ a ∈ l := by
  induction l with
  | nil => simp [sortByMtime]
  | cons f fs ih =>
    rw [sortByMtime]
    simp only [mem_insertByMtime, ih, List.mem_cons]

theorem pairwise_insertByMtime (f : CacheFile) (l : List CacheFile)
    (h : l.Pairwise (fun a b => a.mtime ≤ b.mtime)) :
    (insertByMtime f l).Pairwise (fun a b => a.mtime ≤ b.mtime) := by
  induction l with
  | nil => simp [insertByMtime]
  | cons g gs ih =>
    rw [List.pairwise_cons] at h
    obtain ⟨hg, hgs⟩ := h
    rw [insertByMtime]
    by_cases hle : f.mtime ≤ g.mtime
    · rw [if_pos hle]
      refine List.Pairwise.cons ?_ (List.Pairwise.cons hg hgs)
      intro b hb
      rcases List.mem_cons.mp hb with rfl | hb
      · exact hle
      · exact le_trans hle (hg b hb)
    · rw [if_neg hle]
      refine List.Pairwise.cons ?_ (ih hgs)
      intro b hb
      rcases (mem_insertByMtime f b gs).mp hb with rfl | hb
      · exact le_of_not_le hle
      · exact hg b hb

theorem pairwise_sortByMtime (l : List CacheFile) :
    (sortByMtime l).Pairwise (fun a b => a.mtime ≤ b.mtime) := by
  induction l with
  | nil => simp [sortByMtime]
  | cons f fs ih => exact pairwise_insertByMtime f (sortByMtime fs) ih

theorem evictOldest_suffix (cap : ℕ) (l : List CacheFile) :
    evictOldest cap l <:+ l := by
  induction l with
  | nil => exact List.suffix_refl []
  | cons f fs ih =>
    rw [evictOldest]
    by_cases h : cap < totalSize (f :: fs)
    · rw [if_pos h]
      exact ih.trans (List.suffix_cons f fs)
    · rw [if_neg h]

theorem totalSize_evictOldest_le (cap : ℕ) (l : List CacheFile) :
    totalSize (evictOldest cap l) ≤ cap := by
  induction l with
  | nil => simp [evictOldest, totalSize]
  | cons f fs ih =>
    rw [evictOldest]
    by_cases h : cap < totalSize (f :: fs)
    · rw [if_pos h]
      exact ih
    · rw [if_neg h]
      omega

/-- C5 (counterexample): a touch does not evict.  With a cache size cap of
1 byte and a store already holding one 1-byte segment, saving a second
1-byte segment (a put touch) leaves the store at total size 2 > 1: the put
path performs no eviction at all, because cleanupCache is invoked only from
initializeCache, never after a get or a put. -/
theorem put_does_not_evict :
    segTotalSize (saveCachedSegment st5 "b" [0] 0) = 2 ∧
    ¬ (segTotalSize (saveCachedSegment st5 "b" [0] 0) ≤ 1) := by decide

/-- C5 (amended): the eviction pass (cleanupCache, which runs at cache
initialization rather than after every touch) first drops expired entries
and then drops oldest-by-mtime entries until the remaining total size is at
most the cap: its result is bounded by the cap, is a suffix of the fresh
entries sorted ascending by mtime (so exactly the most-recently-modified
entries are retained), the sorted list is indeed ascending in mtime, and no
expired entry survives. -/
theorem cleanupCache_spec (now maxAgeMs : ℤ) (cap : ℕ) (files : List CacheFile) :
    totalSize (cleanupCache now maxAgeMs cap files) ≤ cap ∧
    cleanupCache now maxAgeMs cap files <:+
      sortByMtime (files.filter (fun f => !isExpired now maxAgeMs f)) ∧
    (sortByMtime (files.filter (fun f => !isExpired now maxAgeMs f))).Pairwise
      (fun a b => a.mtime ≤ b.mtime) ∧
    ∀ f ∈ cleanupCache now maxAgeMs cap files,
      isExpired now maxAgeMs f = false := by
  refine ⟨totalSize_evictOldest_le cap _, evictOldest_suffix cap _,
    pairwise_sortByMtime _, ?_⟩
  intro f hf
  have hmem : f ∈ sortByMtime (files.filter (fun g => !isExpired now maxAgeMs g)) :=
    (evictOldest_suffix cap _).subset hf
  have hfil : f ∈ files.filter (fun g => !isExpired now maxAgeMs g) :=
    (mem_sortByMtime f _).mp hmem
  have := (List.mem_filter.mp hfil).2
  simpa using this

theorem mem_insertByWidthDesc (r a : Rendition) (l : List Rendition) :
    a ∈ insertByWidthDesc r l ↔ a = r ∨ a ∈ l := by
  induction l with
  | nil => simp [insertByWidthDesc]
  | cons s ss ih =>
    rw [insertByWidthDesc]
    by_cases h : s.width ≤ r.width
    · rw [if_pos h]
      simp [List.mem_cons]
    · rw [if_neg h]
      simp only [List.mem_cons, ih]
      tauto

theorem mem_sortByWidthDesc (a : Rendition) (l : List Rendition) :
    a ∈ sortByWidthDesc l ↔ a ∈ l := by
  induction l with
  | nil => simp [sortByWidthDesc]
  | cons r rs ih =>
    rw [sortByWidthDesc]
    simp only [mem_insertByWidthDesc, ih, List.mem_cons]

/-- C6 (counterexample): the part_001 segment selector filters only on
hasVideo, so with quality lowest over c6List it picks the 100px rendition
that carries audio even though the 200px video-only rendition is present —
it does not prefer video-only renditions. -/
theorem segment_selector_picks_audio :
    (⟨200, true, false, true⟩ : Rendition) ∈ c6List ∧
    (⟨200, true, false, true⟩ : Rendition).hasVideo = true ∧
    (⟨200, true, false, true⟩ : Rendition).hasAudio = false ∧
    selectFormatSegment c6List Quality.lowest 480 =
      some ⟨100, true, true, true⟩ := by decide

/-- C6 (amended): the v1.0.0 selector of video-gif-converter.js does prefer
video-only renditions — whenever some rendition has video and no audio, the
selected rendition has video and no audio; the part_001 segment selector
drops this preference and can select a rendition carrying audio even when a
video-only rendition exists. -/
theorem legacy_selector_prefers_video_only (l : List Rendition) (r : Rendition)
    (hm : r ∈ l) (hv : r.hasVideo = true) (ha : r.hasAudio = false) :
    ∃ s, selectFormatLegacy l = some s ∧
      s.hasVideo = true ∧ s.hasAudio = false := by
  have hmem : r ∈ l.filter (fun f => f.hasVideo && !f.hasAudio) := by
    rw [List.mem_filter]
    exact ⟨hm, by simp [hv, ha]⟩
  unfold selectFormatLegacy
  cases hvo : l.filter (fun f => f.hasVideo && !f.hasAudio) with
  | nil => rw [hvo] at hmem; cases hmem
  | cons v vs =>
    have hne : (v :: vs).isEmpty = false := rfl
    simp only [hvo, hne, Bool.false_eq_true, if_false]
    cases hs : sortByWidthDesc (v :: vs) with
    | nil =>
      exfalso
      have : v ∈ sortByWidthDesc (v :: vs) :=
        (mem_sortByWidthDesc v (v :: vs)).mpr (List.mem_cons_self v vs)
      rw [hs] at this
      cases this
    | cons s ss =>
      refine ⟨s, rfl, ?_⟩
      have hsmem : s ∈ sortByWidthDesc (v :: vs) := by
        rw [hs]; exact List.mem_cons_self s ss
      have : s ∈ l.filter (fun f => f.hasVideo && !f.hasAudio) := by
        rw [hvo]; exact (mem_sortByWidthDesc s (v :: vs)).mp hsmem
      have hflag := (List.mem_filter.mp this).2
      constructor
      · exact (Bool.and_eq_true_iff.mp hflag).1
      · have := (Bool.and_eq_true_iff.mp hflag).2
        simpa using this

/-- C6 witness: the amended preference statement on c6List, whose 200px
rendition is video-only. -/
theorem legacy_selector_prefers_video_only_witness :
    ∃ s, selectFormatLegacy c6List = some s ∧
      s.hasVideo = true ∧ s.hasAudio = false :=
  legacy_selector_prefers_video_only c6List ⟨200, true, false, true⟩
    (by decide) rfl rfl

theorem lookupSeg_storeReplace (st : List SegEntry) (e : SegEntry) :
    lookupSeg (storeReplace st e) e.key = some e := by
  induction st with
  | nil => simp [storeReplace, lookupSeg]
  | cons f fs ih =>
    rw [storeReplace]
    by_cases h : f.key = e.key
    · rw [if_pos h]
      simp [lookupSeg]
    · rw [if_neg h]
      rw [lookupSeg, if_neg h]
      exact ih

/-- C8 (counterexample): a put of an empty payload followed by a get on the
same key, at the same instant and within the max age, returns a miss (the
zero-size entry is treated as invalid and unlinked) instead of a path to
byte-identical content — so the round-trip claim fails for empty payloads. -/
theorem cache_roundtrip_empty_misses :
    getCachedSegment (saveCachedSegment [] "k" [] 0) "k" 0 7 = (none, []) := by
  decide

/-- C8 (amended): for every nonempty payload, put followed by get on the
same key within the max age returns content byte-identical to the content
stored by the put. -/
theorem cache_roundtrip (store : List SegEntry) (k : String) (c : List ℕ)
    (tput tget maxAgeMs : ℤ) (hne : c ≠ []) (hage : tget - tput ≤ maxAgeMs) :
    (getCachedSegment (saveCachedSegment store k c tput) k tget maxAgeMs).1 =
      some c := by
  unfold getCachedSegment saveCachedSegment
  have hl : lookupSeg (storeReplace store ⟨k, c, tput⟩) k = some ⟨k, c, tput⟩ :=
    lookupSeg_storeReplace store ⟨k, c, tput⟩
  rw [hl]
  have hcond : tget - (⟨k, c, tput⟩ : SegEntry).mtime ≤ maxAgeMs ∧
      0 < (⟨k, c, tput⟩ : SegEntry).content.length :=
    ⟨hage, List.length_pos.mpr hne⟩
  dsimp only
  rw [if_pos hcond]

/-- C8 witness: the amended round-trip statement at a concrete two-byte
payload stored at time 0 and read at time 1 under max age 7. -/
theorem cache_roundtrip_witness :
    (getCachedSegment (saveCachedSegment [] "k" [7, 8] 0) "k" 1 7).1 =
      some [7, 8] :=
  cache_roundtrip [] "k" [7, 8] 0 1 7 (by decide) (by decide)

theorem findFreeSuffix_spec (fsx : List String) (stem ext : String) :
    ∀ fuel counter p, findFreeSuffix fsx stem ext counter fuel = some p →
      p ∉ fsx ∧ ∃ k, counter ≤ k ∧ p = candidatePath stem ext k := by
  intro fuel
  induction fuel with
  | zero =>
    intro counter p h
    simp [findFreeSuffix] at h
  | succ n ih =>
    intro counter p h
    rw [findFreeSuffix] at h
    by_cases hc : candidatePath stem ext counter ∈ fsx
    · rw [if_pos hc] at h
      obtain ⟨hp, k, hk, hpe⟩ := ih (counter + 1) p h
      exact ⟨hp, k, by omega, hpe⟩
    · rw [if_neg hc] at h
      injection h with h
      subst h
      exact ⟨hc, counter, le_refl counter, rfl⟩

/-- C9: any path returned by getUniqueFilePath is not among the existing
paths, and it is either the requested base path itself or the stem with a
numeric suffix appended — the converter never writes over a pre-existing
file. -/
theorem getUniqueFilePath_fresh (fsx : List String) (stem ext p : String)
    (h : getUniqueFilePath fsx stem ext = some p) :
    p ∉ fsx ∧
      (p = stem ++ ext ∨ ∃ k, 1 ≤ k ∧ p = candidatePath stem ext k) := by
  unfold getUniqueFilePath at h
  by_cases hb : (stem ++ ext) ∈ fsx
  · rw [if_pos hb] at h
    obtain ⟨hp, k, hk, hpe⟩ := findFreeSuffix_spec fsx stem ext (fsx.length + 1) 1 p h
    exact ⟨hp, Or.inr ⟨k, hk, hpe⟩⟩
  · rw [if_neg hb] at h
    injection h with h
    subst h
    exact ⟨hb, Or.inl rfl⟩

/-- C9 witness: with out.gif and out-1.gif already existing, the returned
path out-2.gif is fresh and of the suffixed form. -/
theorem getUniqueFilePath_fresh_witness :
    "out-2.gif" ∉ fs9 ∧
      ("out-2.gif" = "out" ++ ".gif" ∨
        ∃ k, 1 ≤ k ∧ "out-2.gif" = candidatePath "out" ".gif" k) :=
  getUniqueFilePath_fresh fs9 "out" ".gif" "out-2.gif" (by decide)

end VGif
